import Mathlib

/-!
Shallow embedding of `src/utility_glm.cpp` from the glmmPen package: the
IRLS helper functions `initial_mu`, `muvalid`, `mu_adjust`, `dlink`,
`linkfun`, `invlink`, `varfun`.

Vectors (`arma::vec`) are `List ℚ` for the family helpers, whose arithmetic
is only comparisons, `+` and `/` on small decimal constants (modelled
exactly over ℚ), and `List ℝ` for the link functions, which use `log` and
`exp`.  `Rcpp::stop(msg)` is modelled by `Except String`, carrying the
exact message string of the source.  The C++ `initial_mu(family, y, N)`
takes the length `N` separately and loops `i = 0..N-1` over `y`; its
callers pass `N = y.length`, and the embedding identifies the two.  For an
unrecognized family the C++ `initial_mu` returns the uninitialized
`arma::vec mu(N)`; the arbitrary contents of that vector are modelled by an
explicit parameter `junk`.  Armadillo's elementwise operators (`%`, `/`,
`-`, `log`, `exp`) on equal-length vectors built from `ones_vec` and
`zeros_vec` act independently at each position, so the link functions are
embedded as `List.map` of the per-element scalar function.
-/

/-- Run an elementwise fallible computation down a list, stopping at the
first error, as the C++ `for` loops calling `stop(...)` do. -/
def mapExcept (f : ℚ → Except String ℚ) : List ℚ → Except String (List ℚ)
  | [] => .ok []
  | v :: vs =>
    match f v with
    | .error m => .error m
    | .ok w =>
      match mapExcept f vs with
      | .error m => .error m
      | .ok ws => .ok (w :: ws)

/-- Body of the Binomial branch of the `initial_mu` loop at one element. -/
def initial_mu_binomial_step (yi : ℚ) : Except String ℚ :=
  if yi < 0 then .error "negative values not allowed for the Binomial family"
  else if yi > 1 then .error "# of success is larger than 1"
  else .ok ((yi + 1/2) / (1 + 1))

/-- Body of the Poisson branch of the `initial_mu` loop at one element. -/
def initial_mu_poisson_step (yi : ℚ) : Except String ℚ :=
  if yi < 0 then .error "negative values not allowed for the Poisson family"
  else .ok (yi + 1/10)

/-- Body of the Gamma branch of the `initial_mu` loop at one element
(the message spelling "non-poistive" is the source's). -/
def initial_mu_gamma_step (yi : ℚ) : Except String ℚ :=
  if yi ≤ 0 then .error "non-poistive values not allowed for the Gamma family"
  else .ok (yi + 1/10)

/-- `initial_mu(family, y, N)` with `N = y.length`; see the file comment. -/
def initial_mu (family : String) (y : List ℚ) (junk : ℚ) : Except String (List ℚ) :=
  if family = "binomial" then mapExcept initial_mu_binomial_step y
  else if family = "poisson" then mapExcept initial_mu_poisson_step y
  else if family = "gaussian" then .ok y
  else if family = "Gamma" then mapExcept initial_mu_gamma_step y
  else .ok (List.replicate y.length junk)

/-- `muvalid(family, mu)`: per-element admissibility flags; the source stores
the C++ boolean `1.0`/`0.0` in an `arma::vec`, modelled as `Bool`.
Constants from the source: `minb = 0.0001`, `maxb = 0.9999`,
`minp = 0.0001`, `gammaMin = 0.001`. -/
def muvalid (family : String) (mu : List ℚ) : Except String (List Bool) :=
  if family = "binomial" then
    .ok (mu.map fun x => decide (1/10000 < x) && decide (x < 9999/10000))
  else if family = "poisson" then
    .ok (mu.map fun x => decide (1/10000 < x))
  else if family = "gaussian" then
    .ok (mu.map fun _ => true)
  else if family = "Gamma" then
    .ok (mu.map fun x => decide (1/1000 < x))
  else .error "invalid family \n"

/-- `mu_adjust(family, mu)`: clamp each element into the family range.
Constants from the source: `minb = 0.001`, `maxb = 0.999`, `minp = 0.001`,
`gammaMin = 0.001`; branch order as in the source (`Gamma` before
`gaussian`). -/
def mu_adjust (family : String) (mu : List ℚ) : Except String (List ℚ) :=
  if family = "binomial" then
    .ok (mu.map fun x =>
      if x < 1/1000 then 1/1000 else if x > 999/1000 then 999/1000 else x)
  else if family = "poisson" then
    .ok (mu.map fun x => if x < 1/1000 then 1/1000 else x)
  else if family = "Gamma" then
    .ok (mu.map fun x => if x < 1/1000 then 1/1000 else x)
  else if family = "gaussian" then
    .ok mu
  else .error "invalid family \n"

/-- `varfun(family, mu)`: the GLM variance function, with the source's
elementwise vector operations against `ones_vec` kept as `zipWith` against
`List.replicate mu.length 1`. -/
def varfun (family : String) (mu : List ℚ) : Except String (List ℚ) :=
  if family = "binomial" then
    .ok (List.zipWith (· * ·) mu (List.zipWith (· - ·) (List.replicate mu.length 1) mu))
  else if family = "poisson" then
    .ok mu
  else if family = "gaussian" then
    .ok (List.replicate mu.length 1)
  else if family = "Gamma" then
    .ok (List.zipWith (· * ·) mu mu)
  else .error "invalid family \n"

/-- Per-element value of `dlink(link, mu)`. -/
noncomputable def dlinkScalar (link : ℤ) (mu : ℝ) : ℝ :=
  if link = 10 then 1 / (mu * (1 - mu))
  else if link = 11 then 0
  else if link = 12 then 1 / (Real.log (1 - mu) * (1 - mu))
  else if link = 20 then 1 / mu
  else if link = 30 then 1
  else if link = 40 then 0 - 1 / (mu * mu)
  else 0

/-- `dlink(link, mu)` elementwise on the vector. -/
noncomputable def dlink (link : ℤ) (mu : List ℝ) : List ℝ :=
  mu.map (dlinkScalar link)

/-- Per-element value of `linkfun(link, mu)`. -/
noncomputable def linkfunScalar (link : ℤ) (mu : ℝ) : ℝ :=
  if link = 10 then Real.log (mu / (1 - mu))
  else if link = 11 then 0
  else if link = 12 then Real.log (-1 * Real.log (1 - mu))
  else if link = 20 then Real.log mu
  else if link = 30 then mu
  else if link = 40 then 1 / mu
  else 0

/-- `linkfun(link, mu)` elementwise on the vector. -/
noncomputable def linkfun (link : ℤ) (mu : List ℝ) : List ℝ :=
  mu.map (linkfunScalar link)

/-- Per-element value of `invlink(link, eta)`. -/
noncomputable def invlinkScalar (link : ℤ) (eta : ℝ) : ℝ :=
  if link = 10 then Real.exp eta / (1 + Real.exp eta)
  else if link = 11 then 0
  else if link = 12 then 1 - Real.exp (0 - 1 * Real.exp eta)
  else if link = 20 then Real.exp eta
  else if link = 30 then eta
  else if link = 40 then 0 - 1 / eta
  else 0

/-- `invlink(link, eta)` elementwise on the vector. -/
noncomputable def invlink (link : ℤ) (eta : List ℝ) : List ℝ :=
  eta.map (invlinkScalar link)

/-! ### Helper lemmas -/

theorem mapExcept_ok_of_forall {f : ℚ → Except String ℚ} {g : ℚ → ℚ} :
    ∀ y : List ℚ, (∀ v ∈ y, f v = .ok (g v)) → mapExcept f y = .ok (y.map g) := by
  intro y h
  induction y with
  | nil => rfl
  | cons v vs ih =>
    have hv : f v = .ok (g v) := h v (List.mem_cons_self v vs)
    have hvs : mapExcept f vs = .ok (vs.map g) :=
      ih fun w hw => h w (List.mem_cons_of_mem v hw)
    simp [mapExcept, hv, hvs]

theorem mapExcept_error_of_exists {f : ℚ → Except String ℚ} :
    ∀ y : List ℚ, (∃ v ∈ y, ∃ m, f v = .error m) →
      ∃ m, mapExcept f y = .error m ∧ ∃ v ∈ y, f v = .error m := by
  intro y h
  induction y with
  | nil => simp at h
  | cons v vs ih =>
    cases hfv : f v with
    | error m =>
      exact ⟨m, by simp [mapExcept, hfv], v, List.mem_cons_self v vs, hfv⟩
    | ok w =>
      have htail : ∃ u ∈ vs, ∃ m, f u = .error m := by
        obtain ⟨u, hu, m, hm⟩ := h
        rcases List.mem_cons.mp hu with rfl | hu
        · rw [hfv] at hm; cases hm
        · exact ⟨u, hu, m, hm⟩
      obtain ⟨m, hmap, u, hu, hm⟩ := ih htail
      exact ⟨m, by simp [mapExcept, hfv, hmap], u, List.mem_cons_of_mem v hu, hm⟩

theorem map_eq_replicate_of_forall {α β : Type} {g : α → β} {b : β} :
    ∀ l : List α, (∀ x ∈ l, g x = b) → l.map g = List.replicate l.length b := by
  intro l h
  induction l with
  | nil => rfl
  | cons v vs ih =>
    simp only [List.map_cons, List.length_cons, List.replicate_succ]
    rw [h v (List.mem_cons_self v vs), ih fun w hw => h w (List.mem_cons_of_mem v hw)]

theorem clamp_binomial_eq_max_min (x : ℚ) :
    (if x < 1/1000 then (1:ℚ)/1000 else if x > 999/1000 then 999/1000 else x)
      = max (1/1000) (min x (999/1000)) := by
  rcases lt_trichotomy x (1/1000) with h | h | h <;>
    · simp only [max_def, min_def]
      split_ifs <;> linarith

theorem clamp_low_eq_max (x : ℚ) :
    (if x < 1/1000 then (1:ℚ)/1000 else x) = max (1/1000) x := by
  simp only [max_def]
  split_ifs <;> linarith

theorem zipWith_ones_sub_eq_map (mu : List ℚ) :
    List.zipWith (· * ·) mu (List.zipWith (· - ·) (List.replicate mu.length 1) mu)
      = mu.map fun x => x * (1 - x) := by
  induction mu with
  | nil => rfl
  | cons v vs ih => simp [List.replicate_succ, ih]

theorem zipWith_self_eq_map_sq (mu : List ℚ) :
    List.zipWith (· * ·) mu mu = mu.map fun x => x * x := by
  induction mu with
  | nil => rfl
  | cons v vs ih => simp [ih]

/-! ### Claims -/

/-- C5: for each recognized family, `muvalid` returns a parallel boolean
vector whose i-th entry is true exactly when `mu[i]` lies strictly inside
the family's open interval: Binomial `(0.0001, 0.9999)`, Poisson
`(0.0001, ∞)`, Gamma `(0.001, ∞)`; for Gaussian every entry is true. -/
theorem muvalid_interval_spec :
    ∀ (mu : List ℚ) (i : ℕ) (x : ℚ), mu[i]? = some x →
      (∃ vs, muvalid "binomial" mu = .ok vs ∧ vs.length = mu.length ∧
        (vs[i]? = some true ↔ (1/10000 < x ∧ x < 9999/10000)))
      ∧ (∃ vs, muvalid "poisson" mu = .ok vs ∧ vs.length = mu.length ∧
        (vs[i]? = some true ↔ 1/10000 < x))
      ∧ (∃ vs, muvalid "gaussian" mu = .ok vs ∧ vs.length = mu.length ∧
        vs[i]? = some true)
      ∧ (∃ vs, muvalid "Gamma" mu = .ok vs ∧ vs.length = mu.length ∧
        (vs[i]? = some true ↔ 1/1000 < x)) := by
  intro mu i x hx
  have hi : i < mu.length := by
    by_contra hge
    push_neg at hge
    rw [List.getElem?_eq_none hge] at hx
    cases hx
  have hxx : mu[i] = x := by
    have h2 := List.getElem?_eq_getElem hi
    rw [hx] at h2
    exact (Option.some.inj h2).symm
  refine ⟨⟨_, rfl, by simp, ?_⟩, ⟨_, rfl, by simp, ?_⟩,
    ⟨_, rfl, by simp, ?_⟩, ⟨_, rfl, by simp, ?_⟩⟩ <;>
    simp [muvalid, List.getElem?_map, List.getElem?_replicate, hx, hi, hxx]

/-- C5 witness: concrete instance at `mu = [1/2]`, `i = 0`. -/
theorem muvalid_interval_spec_witness :
    (([(1:ℚ)/2] : List ℚ)[0]? = some (1/2))
    ∧ (∃ vs, muvalid "binomial" [(1:ℚ)/2] = .ok vs ∧ vs.length = 1 ∧
        (vs[0]? = some true ↔ ((1:ℚ)/10000 < 1/2 ∧ (1:ℚ)/2 < 9999/10000))) :=
  ⟨rfl, (muvalid_interval_spec [(1:ℚ)/2] 0 (1/2) rfl).1⟩

/-- C6: for each recognized family, `mu_adjust` clamps each out-of-range
element to the nearest boundary and passes in-range elements through:
Binomial into `[0.001, 0.999]`, Poisson and Gamma low-clamped at `0.001`,
Gaussian identity. -/
theorem mu_adjust_clamp_spec :
    ∀ mu : List ℚ,
      mu_adjust "binomial" mu = .ok (mu.map fun x => max (1/1000) (min x (999/1000)))
      ∧ mu_adjust "poisson" mu = .ok (mu.map fun x => max (1/1000) x)
      ∧ mu_adjust "Gamma" mu = .ok (mu.map fun x => max (1/1000) x)
      ∧ mu_adjust "gaussian" mu = .ok mu := by
  intro mu
  refine ⟨?_, ?_, ?_, rfl⟩ <;> simp only [mu_adjust, String.reduceEq, reduceIte]
  · rw [List.map_congr_left fun x _ => clamp_binomial_eq_max_min x]
  · rw [List.map_congr_left fun x _ => clamp_low_eq_max x]
  · rw [List.map_congr_left fun x _ => clamp_low_eq_max x]

/-- C7: `varfun` computes the per-element variance function: Binomial
`mu·(1-mu)`, Poisson `mu`, Gaussian constant `1` at every position
regardless of `mu`, Gamma `mu²`. -/
theorem varfun_spec :
    ∀ mu : List ℚ,
      varfun "binomial" mu = .ok (mu.map fun x => x * (1 - x))
      ∧ varfun "poisson" mu = .ok mu
      ∧ varfun "gaussian" mu = .ok (List.replicate mu.length 1)
      ∧ varfun "Gamma" mu = .ok (mu.map fun x => x * x) := by
  intro mu
  refine ⟨?_, rfl, rfl, ?_⟩
  · simp only [varfun, String.reduceEq, reduceIte, zipWith_ones_sub_eq_map]
  · simp only [varfun, String.reduceEq, reduceIte, zipWith_self_eq_map_sq]

theorem initial_mu_binomial_step_messages {v : ℚ} {m : String}
    (h : initial_mu_binomial_step v = .error m) :
    m = "negative values not allowed for the Binomial family"
    ∨ m = "# of success is larger than 1" := by
  unfold initial_mu_binomial_step at h
  split_ifs at h
  · exact Or.inl (Except.error.inj h).symm
  · exact Or.inr (Except.error.inj h).symm

/-- C4 counterexample: the source's error messages differ from the claim's
quoted texts.  At `y = [2]` the Binomial branch stops with
"# of success is larger than 1", not "# of success larger than 1"; at
`y = [0]` the Gamma branch stops with the source's misspelled
"non-poistive values not allowed for the Gamma family", not
"non-positive values not allowed". -/
theorem initial_mu_message_counterexample :
    initial_mu "binomial" [2] 0 = .error "# of success is larger than 1"
    ∧ "# of success is larger than 1" ≠ "# of success larger than 1"
    ∧ initial_mu "Gamma" [0] 0 = .error "non-poistive values not allowed for the Gamma family"
    ∧ "non-poistive values not allowed for the Gamma family"
      ≠ "non-positive values not allowed" := by
  refine ⟨?_, by decide, ?_, by decide⟩
  · show mapExcept initial_mu_binomial_step [2] = _
    norm_num [mapExcept, initial_mu_binomial_step]
  · show mapExcept initial_mu_gamma_step [0] = _
    norm_num [mapExcept, initial_mu_gamma_step]

/-- C4 (amended): the per-family contract of `initial_mu`, with the code's
exact error messages: Binomial rejects `y[i] < 0` ("negative values not
allowed for the Binomial family") and `y[i] > 1` ("# of success is larger
than 1") and otherwise returns `(y[i] + 0.5)/2` (so `[0,1] ↦ [0.25,0.75]`);
Poisson rejects `y[i] < 0` and otherwise returns `y[i] + 0.1`; Gaussian
returns `y` unchanged; Gamma rejects `y[i] ≤ 0` ("non-poistive values not
allowed for the Gamma family", spelling as in the source) and otherwise
returns `y[i] + 0.1`. -/
theorem initial_mu_contract :
    ∀ junk : ℚ,
      (∀ y : List ℚ, (∀ v ∈ y, 0 ≤ v ∧ v ≤ 1) →
        initial_mu "binomial" y junk = .ok (y.map fun v => (v + 1/2) / (1 + 1)))
      ∧ (∀ y : List ℚ, (∃ v ∈ y, v < 0 ∨ 1 < v) →
        ∃ m, initial_mu "binomial" y junk = .error m ∧
          (m = "negative values not allowed for the Binomial family"
           ∨ m = "# of success is larger than 1"))
      ∧ initial_mu "binomial" [0, 1] junk = .ok [1/4, 3/4]
      ∧ (∀ y : List ℚ, (∀ v ∈ y, 0 ≤ v) →
        initial_mu "poisson" y junk = .ok (y.map fun v => v + 1/10))
      ∧ (∀ y : List ℚ, (∃ v ∈ y, v < 0) →
        initial_mu "poisson" y junk
          = .error "negative values not allowed for the Poisson family")
      ∧ (∀ y : List ℚ, initial_mu "gaussian" y junk = .ok y)
      ∧ (∀ y : List ℚ, (∀ v ∈ y, 0 < v) →
        initial_mu "Gamma" y junk = .ok (y.map fun v => v + 1/10))
      ∧ (∀ y : List ℚ, (∃ v ∈ y, v ≤ 0) →
        initial_mu "Gamma" y junk
          = .error "non-poistive values not allowed for the Gamma family") := by
  intro junk
  refine ⟨?_, ?_, ?_, ?_, ?_, fun y => by simp [initial_mu], ?_, ?_⟩
  · intro y h
    have hmap : mapExcept initial_mu_binomial_step y
        = .ok (y.map fun v => (v + 1/2) / (1 + 1)) :=
      mapExcept_ok_of_forall y fun v hv => by
        simp [initial_mu_binomial_step, not_lt.mpr (h v hv).1, not_lt.mpr (h v hv).2]
    simpa [initial_mu] using hmap
  · intro y h
    have hex : ∃ v ∈ y, ∃ m, initial_mu_binomial_step v = .error m := by
      obtain ⟨v, hv, hbad⟩ := h
      rcases hbad with hneg | hbig
      · exact ⟨v, hv, "negative values not allowed for the Binomial family",
          by simp [initial_mu_binomial_step, hneg]⟩
      · refine ⟨v, hv, "# of success is larger than 1", ?_⟩
        have hnn : ¬ v < 0 := by linarith
        simp [initial_mu_binomial_step, hnn, hbig]
    obtain ⟨m, hmap, _, _, hm⟩ := mapExcept_error_of_exists y hex
    exact ⟨m, by simpa [initial_mu] using hmap, initial_mu_binomial_step_messages hm⟩
  · norm_num [initial_mu, mapExcept, initial_mu_binomial_step]
  · intro y h
    have hmap : mapExcept initial_mu_poisson_step y = .ok (y.map fun v => v + 1/10) :=
      mapExcept_ok_of_forall y fun v hv => by
        simp [initial_mu_poisson_step, not_lt.mpr (h v hv)]
    simpa [initial_mu] using hmap
  · intro y h
    have hex : ∃ v ∈ y, ∃ m, initial_mu_poisson_step v = .error m := by
      obtain ⟨v, hv, hneg⟩ := h
      exact ⟨v, hv, "negative values not allowed for the Poisson family",
        by simp [initial_mu_poisson_step, hneg]⟩
    obtain ⟨m, hmap, _, _, hm⟩ := mapExcept_error_of_exists y hex
    have : m = "negative values not allowed for the Poisson family" := by
      unfold initial_mu_poisson_step at hm
      split_ifs at hm
      exact (Except.error.inj hm).symm
    rw [← this]
    simpa [initial_mu] using hmap
  · intro y h
    have hmap : mapExcept initial_mu_gamma_step y = .ok (y.map fun v => v + 1/10) :=
      mapExcept_ok_of_forall y fun v hv => by
        simp [initial_mu_gamma_step, not_le.mpr (h v hv)]
    simpa [initial_mu] using hmap
  · intro y h
    have hex : ∃ v ∈ y, ∃ m, initial_mu_gamma_step v = .error m := by
      obtain ⟨v, hv, hle⟩ := h
      exact ⟨v, hv, "non-poistive values not allowed for the Gamma family",
        by simp [initial_mu_gamma_step, hle]⟩
    obtain ⟨m, hmap, _, _, hm⟩ := mapExcept_error_of_exists y hex
    have : m = "non-poistive values not allowed for the Gamma family" := by
      unfold initial_mu_gamma_step at hm
      split_ifs at hm
      exact (Except.error.inj hm).symm
    rw [← this]
    simpa [initial_mu] using hmap

/-- C4 witness: concrete instances exercising every branch of
`initial_mu_contract`. -/
theorem initial_mu_contract_witness :
    initial_mu "binomial" [0, 1] 0 = .ok [1/4, 3/4]
    ∧ (∃ m, initial_mu "binomial" [-1] 0 = .error m ∧
        (m = "negative values not allowed for the Binomial family"
         ∨ m = "# of success is larger than 1"))
    ∧ initial_mu "poisson" [0] 0 = .ok [1/10]
    ∧ initial_mu "poisson" [-1] 0
        = .error "negative values not allowed for the Poisson family"
    ∧ initial_mu "gaussian" [5] 0 = .ok [5]
    ∧ initial_mu "Gamma" [1] 0 = .ok [11/10]
    ∧ initial_mu "Gamma" [0] 0
        = .error "non-poistive values not allowed for the Gamma family" := by
  obtain ⟨hbo, hbe, hb01, hpo, hpe, hg, hGo, hGe⟩ := initial_mu_contract 0
  refine ⟨hb01, hbe [-1] ⟨-1, by simp, Or.inl (by norm_num)⟩, ?_,
    hpe [-1] ⟨-1, by simp, by norm_num⟩, hg [5], ?_,
    hGe [0] ⟨0, by simp, le_refl 0⟩⟩
  · have h := hpo [0] (by norm_num)
    norm_num at h
    exact h
  · have h := hGo [1] (by norm_num)
    norm_num at h
    exact h

/-- C9: for a family tag outside the four recognized ones, `muvalid`,
`mu_adjust` and `varfun` each stop with the message "invalid family \n"
(of which the claim's quoted "invalid family" is the prefix), while
`initial_mu` does not stop and returns a vector of length `N = y.length`
whose contents are the uninitialized-memory values (the `junk` parameter
of the embedding). -/
theorem unknown_family_spec :
    ∀ (fam : String) (mu y : List ℚ) (junk : ℚ),
      fam ≠ "binomial" → fam ≠ "poisson" → fam ≠ "gaussian" → fam ≠ "Gamma" →
      muvalid fam mu = .error "invalid family \n"
      ∧ mu_adjust fam mu = .error "invalid family \n"
      ∧ varfun fam mu = .error "invalid family \n"
      ∧ initial_mu fam y junk = .ok (List.replicate y.length junk)
      ∧ "invalid family \n" = "invalid family" ++ " \n" := by
  intro fam mu y junk h1 h2 h3 h4
  refine ⟨?_, ?_, ?_, ?_, rfl⟩ <;>
    simp [muvalid, mu_adjust, varfun, initial_mu, h1, h2, h3, h4]

/-- C9 witness: concrete instance at the unrecognized tag "negbin". -/
theorem unknown_family_spec_witness :
    (("negbin" : String) ≠ "binomial")
    ∧ (muvalid "negbin" [1] = .error "invalid family \n"
      ∧ mu_adjust "negbin" [1] = .error "invalid family \n"
      ∧ varfun "negbin" [1] = .error "invalid family \n"
      ∧ initial_mu "negbin" [1, 2] 7 = .ok (List.replicate 2 7)
      ∧ "invalid family \n" = "invalid family" ++ " \n") :=
  ⟨by decide, unknown_family_spec "negbin" [1] [1, 2] 7
    (by decide) (by decide) (by decide) (by decide)⟩

/-- C10: for each recognized family and response `y` satisfying the family's
domain precondition, the starting mean vector produced by `initial_mu` is
already admissible: `muvalid` returns `true` at every element. -/
theorem initial_mu_muvalid_start :
    ∀ junk : ℚ,
      (∀ (y mu : List ℚ), (∀ v ∈ y, 0 ≤ v ∧ v ≤ 1) →
        initial_mu "binomial" y junk = .ok mu →
        muvalid "binomial" mu = .ok (List.replicate mu.length true))
      ∧ (∀ (y mu : List ℚ), (∀ v ∈ y, 0 ≤ v) →
        initial_mu "poisson" y junk = .ok mu →
        muvalid "poisson" mu = .ok (List.replicate mu.length true))
      ∧ (∀ (y mu : List ℚ), initial_mu "gaussian" y junk = .ok mu →
        muvalid "gaussian" mu = .ok (List.replicate mu.length true))
      ∧ (∀ (y mu : List ℚ), (∀ v ∈ y, 0 < v) →
        initial_mu "Gamma" y junk = .ok mu →
        muvalid "Gamma" mu = .ok (List.replicate mu.length true)) := by
  intro junk
  refine ⟨?_, ?_, ?_, ?_⟩
  · intro y mu hy h
    have hok : mapExcept initial_mu_binomial_step y
        = .ok (y.map fun v => (v + 1/2) / (1 + 1)) :=
      mapExcept_ok_of_forall y fun v hv => by
        simp [initial_mu_binomial_step, not_lt.mpr (hy v hv).1, not_lt.mpr (hy v hv).2]
    have hmu : mu = y.map fun v => (v + 1/2) / (1 + 1) := by
      have h2 : initial_mu "binomial" y junk
          = .ok (y.map fun v => (v + 1/2) / (1 + 1)) := by
        simpa [initial_mu] using hok
      rw [h2] at h
      exact (Except.ok.inj h).symm
    subst hmu
    show Except.ok ((y.map fun v => (v + 1/2) / (1 + 1)).map fun x =>
      decide (1/10000 < x) && decide (x < 9999/10000)) = _
    rw [map_eq_replicate_of_forall _ ?_]
    intro x hx
    obtain ⟨v, hv, rfl⟩ := List.mem_map.mp hx
    have hb := hy v hv
    simp only [Bool.and_eq_true, decide_eq_true_eq]
    constructor <;> nlinarith [hb.1, hb.2]
  · intro y mu hy h
    have hok : mapExcept initial_mu_poisson_step y = .ok (y.map fun v => v + 1/10) :=
      mapExcept_ok_of_forall y fun v hv => by
        simp [initial_mu_poisson_step, not_lt.mpr (hy v hv)]
    have hmu : mu = y.map fun v => v + 1/10 := by
      have h2 : initial_mu "poisson" y junk = .ok (y.map fun v => v + 1/10) := by
        simpa [initial_mu] using hok
      rw [h2] at h
      exact (Except.ok.inj h).symm
    subst hmu
    show Except.ok ((y.map fun v => v + 1/10).map fun x => decide (1/10000 < x)) = _
    rw [map_eq_replicate_of_forall _ ?_]
    intro x hx
    obtain ⟨v, hv, rfl⟩ := List.mem_map.mp hx
    have hb := hy v hv
    simp only [decide_eq_true_eq]
    nlinarith [hb]
  · intro y mu h
    have hmu : mu = y := by
      have h2 : initial_mu "gaussian" y junk = .ok y := by simp [initial_mu]
      rw [h2] at h
      exact (Except.ok.inj h).symm
    subst hmu
    show Except.ok (mu.map fun _ => true) = _
    rw [map_eq_replicate_of_forall _ fun _ _ => rfl]
  · intro y mu hy h
    have hok : mapExcept initial_mu_gamma_step y = .ok (y.map fun v => v + 1/10) :=
      mapExcept_ok_of_forall y fun v hv => by
        simp [initial_mu_gamma_step, not_le.mpr (hy v hv)]
    have hmu : mu = y.map fun v => v + 1/10 := by
      have h2 : initial_mu "Gamma" y junk = .ok (y.map fun v => v + 1/10) := by
        simpa [initial_mu] using hok
      rw [h2] at h
      exact (Except.ok.inj h).symm
    subst hmu
    show Except.ok ((y.map fun v => v + 1/10).map fun x => decide (1/1000 < x)) = _
    rw [map_eq_replicate_of_forall _ ?_]
    intro x hx
    obtain ⟨v, hv, rfl⟩ := List.mem_map.mp hx
    have hb := hy v hv
    simp only [decide_eq_true_eq]
    nlinarith [hb]

/-- C10 witness: concrete instances for the Binomial and Gamma branches. -/
theorem initial_mu_muvalid_start_witness :
    muvalid "binomial" [(1:ℚ)/4, 3/4] = .ok (List.replicate 2 true)
    ∧ muvalid "Gamma" [(11:ℚ)/10] = .ok (List.replicate 1 true) := by
  constructor
  · refine (initial_mu_muvalid_start 0).1 [0, 1] [1/4, 3/4] (by norm_num) ?_
    show mapExcept initial_mu_binomial_step [0, 1] = _
    norm_num [mapExcept, initial_mu_binomial_step]
  · refine (initial_mu_muvalid_start 0).2.2.2 [1] [11/10] (by norm_num) ?_
    show mapExcept initial_mu_gamma_step [1] = _
    norm_num [mapExcept, initial_mu_gamma_step]

theorem binomial_clamped_is_valid {m : ℚ}
    (h : (if m < 1/1000 then (1:ℚ)/1000 else if m > 999/1000 then 999/1000 else m) ≠ m) :
    (decide ((1:ℚ)/10000 <
        (if m < 1/1000 then (1:ℚ)/1000 else if m > 999/1000 then 999/1000 else m))
      && decide ((if m < 1/1000 then (1:ℚ)/1000 else if m > 999/1000 then 999/1000 else m)
        < 9999/10000)) = true := by
  split_ifs at h ⊢
  · norm_num
  · norm_num
  · exact absurd rfl h

theorem poisson_clamped_is_valid {m : ℚ}
    (h : (if m < 1/1000 then (1:ℚ)/1000 else m) ≠ m) :
    decide ((1:ℚ)/10000 < (if m < 1/1000 then (1:ℚ)/1000 else m)) = true := by
  split_ifs at h ⊢
  · norm_num
  · exact absurd rfl h

theorem gamma_clamped_is_invalid {m : ℚ}
    (h : (if m < 1/1000 then (1:ℚ)/1000 else m) ≠ m) :
    decide ((1:ℚ)/1000 < (if m < 1/1000 then (1:ℚ)/1000 else m)) = false := by
  split_ifs at h ⊢
  · norm_num
  · exact absurd rfl h

/-- C1 counterexample: for the Gamma family the claim fails.  At `mu = [0]`
`mu_adjust` clamps position 0 to the published boundary `0.001`, yet
`muvalid` tests `mu > 0.001` strictly, so the clamped value is *invalid*. -/
theorem mu_adjust_gamma_boundary_invalid :
    mu_adjust "Gamma" [0] = .ok [1/1000]
    ∧ ((1:ℚ)/1000) ≠ 0
    ∧ muvalid "Gamma" [(1:ℚ)/1000] = .ok [false] := by
  refine ⟨?_, by norm_num, ?_⟩
  · show Except.ok ([(0:ℚ)].map fun x => if x < 1/1000 then (1:ℚ)/1000 else x) = _
    norm_num
  · show Except.ok ([(1:ℚ)/1000].map fun x => decide (1/1000 < x)) = _
    norm_num

/-- C1 (amended): for the Binomial and Poisson families, every element that
`mu_adjust` changed (clamped to a boundary constant) tests as valid under
`muvalid`; for the Gamma family every clamped element lands exactly on the
boundary `0.001` and tests as *invalid* under `muvalid`'s strict interval
(the Gaussian branch never clamps, so the claim is vacuous there). -/
theorem mu_adjust_clamped_muvalid :
    (∀ (fam : String) (mu adj : List ℚ) (vs : List Bool) (i : ℕ) (a m : ℚ),
      (fam = "binomial" ∨ fam = "poisson") →
      mu_adjust fam mu = .ok adj → muvalid fam adj = .ok vs →
      mu[i]? = some m → adj[i]? = some a → a ≠ m → vs[i]? = some true)
    ∧ (∀ (mu adj : List ℚ) (vs : List Bool) (i : ℕ) (a m : ℚ),
      mu_adjust "Gamma" mu = .ok adj → muvalid "Gamma" adj = .ok vs →
      mu[i]? = some m → adj[i]? = some a → a ≠ m → vs[i]? = some false) := by
  constructor
  · intro fam mu adj vs i a m hfam hadj hvs hm ha hne
    rcases hfam with rfl | rfl
    · simp only [mu_adjust, reduceIte, Except.ok.injEq] at hadj
      subst hadj
      simp only [muvalid, reduceIte, Except.ok.injEq] at hvs
      subst hvs
      rw [List.getElem?_map, hm] at ha
      rw [List.getElem?_map, List.getElem?_map, hm]
      obtain rfl : _ = a := Option.some.inj ha
      exact congrArg some (binomial_clamped_is_valid hne)
    · simp only [mu_adjust, String.reduceEq, reduceIte, Except.ok.injEq] at hadj
      subst hadj
      simp only [muvalid, String.reduceEq, reduceIte, Except.ok.injEq] at hvs
      subst hvs
      rw [List.getElem?_map, hm] at ha
      rw [List.getElem?_map, List.getElem?_map, hm]
      obtain rfl : _ = a := Option.some.inj ha
      exact congrArg some (poisson_clamped_is_valid hne)
  · intro mu adj vs i a m hadj hvs hm ha hne
    simp only [mu_adjust, String.reduceEq, reduceIte, Except.ok.injEq] at hadj
    subst hadj
    simp only [muvalid, String.reduceEq, reduceIte, Except.ok.injEq] at hvs
    subst hvs
    rw [List.getElem?_map, hm] at ha
    rw [List.getElem?_map, List.getElem?_map, hm]
    obtain rfl : _ = a := Option.some.inj ha
    exact congrArg some (gamma_clamped_is_invalid hne)

/-- C1 witness: Binomial at `mu = [0]`, clamped to `0.001`, which is valid. -/
theorem mu_adjust_clamped_muvalid_witness :
    mu_adjust "binomial" [(0:ℚ)] = .ok [1/1000]
    ∧ muvalid "binomial" [(1:ℚ)/1000] = .ok [true]
    ∧ ((1:ℚ)/1000 ≠ (0:ℚ))
    ∧ (([true] : List Bool)[0]? = some true) := by
  have h1 : mu_adjust "binomial" [(0:ℚ)] = .ok [1/1000] := by
    show Except.ok ([(0:ℚ)].map fun x =>
      if x < 1/1000 then (1:ℚ)/1000 else if x > 999/1000 then 999/1000 else x) = _
    norm_num
  have h2 : muvalid "binomial" [(1:ℚ)/1000] = .ok [true] := by
    show Except.ok ([(1:ℚ)/1000].map fun x =>
      decide (1/10000 < x) && decide (x < 9999/10000)) = _
    norm_num
  exact ⟨h1, h2, by norm_num,
    mu_adjust_clamped_muvalid.1 "binomial" [0] [1/1000] [true] 0 (1/1000) 0
      (Or.inl rfl) h1 h2 rfl rfl (by norm_num)⟩

/-- C8: for link code 11 (probit) and every code outside the implemented
set, `dlink`, `linkfun` and `invlink` raise no error and return the
all-zero vector of the input's length. -/
theorem link_unimplemented_zero :
    ∀ (link : ℤ) (mu : List ℝ), link ∉ ([10, 12, 20, 30, 40] : List ℤ) →
      dlink link mu = List.replicate mu.length 0
      ∧ linkfun link mu = List.replicate mu.length 0
      ∧ invlink link mu = List.replicate mu.length 0 := by
  intro link mu h
  simp only [List.mem_cons, List.not_mem_nil, or_false, not_or] at h
  obtain ⟨h10, h12, h20, h30, h40⟩ := h
  refine ⟨?_, ?_, ?_⟩ <;> simp only [dlink, linkfun, invlink] <;>
  · apply map_eq_replicate_of_forall
    intro x _
    by_cases h11 : link = 11 <;>
      simp [dlinkScalar, linkfunScalar, invlinkScalar, h10, h11, h12, h20, h30, h40]

/-- C8 witness: concrete instance at the probit code 11. -/
theorem link_unimplemented_zero_witness :
    ((11 : ℤ) ∉ ([10, 12, 20, 30, 40] : List ℤ))
    ∧ (dlink 11 [(1:ℝ), 2] = List.replicate 2 0
      ∧ linkfun 11 [(1:ℝ), 2] = List.replicate 2 0
      ∧ invlink 11 [(1:ℝ), 2] = List.replicate 2 0) :=
  ⟨by decide, link_unimplemented_zero 11 [1, 2] (by decide)⟩

/-- C2: the round trip fails at the inverse link (code 40), where the code
itself is inconsistent: `linkfun(40, ·)` is `1/mu` (whose inverse is
`1/eta`, and whose derivative `-1/mu²` is what `dlink(40, ·)` computes),
but `invlink(40, ·)` computes `-1/eta`.  At `mu = [2]`,
`invlink(40, linkfun(40, [2])) = [-2] ≠ [2]`. -/
theorem invlink_linkfun_roundtrip_bug :
    linkfun 40 [(2:ℝ)] = [1/2]
    ∧ invlink 40 (linkfun 40 [(2:ℝ)]) = [-2]
    ∧ ((-2:ℝ)) ≠ 2 := by
  have h : linkfun 40 [(2:ℝ)] = [1/2] := by
    norm_num [linkfun, linkfunScalar]
  refine ⟨h, ?_, by norm_num⟩
  rw [h]
  norm_num [invlink, invlinkScalar]

/-- C3: `dlink` disagrees with the derivative of `linkfun` at the cloglog
link (code 12): the sign is flipped.  At `mu = 1/2` the scalar link
function `log(-log(1-mu))` has derivative `2/log 2 > 0`, while the code
computes `1/(log(1-mu)·(1-mu)) = -(2/log 2) < 0`. -/
theorem dlink_cloglog_derivative_bug :
    dlink 12 [(1:ℝ)/2] = [-(2 / Real.log 2)]
    ∧ HasDerivAt (fun x : ℝ => linkfunScalar 12 x) (2 / Real.log 2) ((1:ℝ)/2)
    ∧ -(2 / Real.log 2) ≠ (2 / Real.log 2 : ℝ) := by
  have hhalf : Real.log (1 - 1/2 : ℝ) = -Real.log 2 := by
    rw [show ((1:ℝ) - 1/2) = 2⁻¹ by norm_num, Real.log_inv]
  have hlog2 : (0:ℝ) < Real.log 2 := Real.log_pos (by norm_num)
  refine ⟨?_, ?_, ?_⟩
  · have hscalar : dlinkScalar 12 ((1:ℝ)/2) = -(2 / Real.log 2) := by
      show (1:ℝ) / (Real.log (1 - 1/2) * (1 - 1/2)) = -(2 / Real.log 2)
      rw [hhalf]
      field_simp
      ring
    show [dlinkScalar 12 ((1:ℝ)/2)] = [-(2 / Real.log 2)]
    rw [hscalar]
  · have h2 : HasDerivAt (fun x : ℝ => Real.log (1 - x)) (-1 / (1 - 1/2)) ((1:ℝ)/2) :=
      ((hasDerivAt_id ((1:ℝ)/2)).const_sub 1).log (by norm_num)
    have h3 : HasDerivAt (fun x : ℝ => -1 * Real.log (1 - x))
        (-1 * (-1 / (1 - 1/2))) ((1:ℝ)/2) := h2.const_mul (-1)
    have h4 : HasDerivAt (fun x : ℝ => Real.log (-1 * Real.log (1 - x)))
        ((-1 * (-1 / (1 - 1/2))) / (-1 * Real.log (1 - 1/2))) ((1:ℝ)/2) :=
      h3.log (by rw [hhalf]; simpa using ne_of_gt hlog2)
    have hfun : (fun x : ℝ => linkfunScalar 12 x)
        = fun x : ℝ => Real.log (-1 * Real.log (1 - x)) := by
      funext x
      simp [linkfunScalar]
    rw [hfun]
    convert h4 using 1
    rw [hhalf]
    norm_num
  · have hpos : (0:ℝ) < 2 / Real.log 2 := by positivity
    intro heq
    linarith
